import Mathlib

/-!
Shallow embedding of the configuration store of the jdnotes desktop
application (`src-tauri/src/db.rs` and the `import_from_indexeddb`
command of `src-tauri/src/commands.rs`).

File contents are modelled as either a parsed JSON value (a file whose
text is valid JSON) or opaque raw bytes (a file whose text is not valid
JSON), so `serde_json::from_str::<Value>` succeeds exactly on the former.
The filesystem is a finite map from path strings to file data plus a set
of existing directories.  Fallible filesystem primitives (read, write,
copy, create_dir_all, metadata) are driven by an explicit fault
environment `Env`, mirroring the `Result`-returning std::fs calls; the
platform app-data directory resolution of `tauri::AppHandle` is the
`appDataDir` field of the same environment.
-/

namespace JDNotes

/-- JSON values, the model of `serde_json::Value`. -/
inductive Json where
  | null : Json
  | bool (b : Bool) : Json
  | num (n : Int) : Json
  | str (s : String) : Json
  | arr (elems : List Json) : Json
  | obj (fields : List (String × Json)) : Json

/-- `Value::get(key)`: field lookup on an object, `None` on anything else. -/
def Json.get : Json → String → Option Json
  | .obj fields, key => fields.lookup key
  | _, _ => none

/-- `Value::as_str`. -/
def Json.asStr : Json → Option String
  | .str s => some s
  | _ => none

/-- `Value::as_array`. -/
def Json.asArray : Json → Option (List Json)
  | .arr elems => some elems
  | _ => none

/-- Contents of one file: text that parses as JSON, or raw unparseable
bytes (tagged by an identifier so copies can be traced, carrying the
byte length reported by `fs::metadata`). -/
inductive FileData where
  | jsonData (j : Json) : FileData
  | rawData (bytes : Nat) : FileData

/- Structural size of a JSON value, standing in for the length of its
serialized text; no claim constrains the numeric size of a JSON file. -/
mutual

def Json.size : Json → Nat
  | .null => 1
  | .bool _ => 1
  | .num _ => 1
  | .str s => 1 + s.length
  | .arr elems => 1 + Json.sizeList elems
  | .obj fields => 1 + Json.sizeFields fields

def Json.sizeList : List Json → Nat
  | [] => 0
  | j :: js => Json.size j + Json.sizeList js

def Json.sizeFields : List (String × Json) → Nat
  | [] => 0
  | (k, j) :: fs => k.length + Json.size j + Json.sizeFields fs

end

/-- Byte length reported by `fs::metadata(..).len()`. -/
def FileData.len : FileData → Nat
  | .jsonData j => j.size
  | .rawData bytes => bytes

/-- Filesystem state: files by absolute path, plus existing directories. -/
structure FS where
  files : List (String × FileData)
  dirs : List String

def FS.readFile (fs : FS) (p : String) : Option FileData :=
  fs.files.lookup p

def FS.fileExists (fs : FS) (p : String) : Bool :=
  (fs.readFile p).isSome

def FS.writeFile (fs : FS) (p : String) (d : FileData) : FS :=
  ⟨(p, d) :: fs.files, fs.dirs⟩

def FS.dirExists (fs : FS) (p : String) : Bool :=
  fs.dirs.contains p

def FS.mkdirAll (fs : FS) (p : String) : FS :=
  ⟨fs.files, p :: fs.dirs⟩

/-- Fault environment: which std::fs primitives fail, and the platform
app-data directory (`none` models `app.path().app_data_dir()` failing). -/
structure Env where
  appDataDir : Option String
  failRead : String → Bool
  failWrite : String → Bool
  failCopy : String → String → Bool
  failCreateDir : String → Bool
  failMetadata : String → Bool

/-- `fs::copy(src, dst)`: fails on an injected fault or a missing source;
on success the destination holds the source bytes. -/
def Env.copyFile (env : Env) (fs : FS) (src dst : String) : Option FS :=
  if env.failCopy src dst then none
  else match fs.readFile src with
    | some d => some (fs.writeFile dst d)
    | none => none

/-- `fs::write(p, text)` of a serialized config (serialization of
`AppConfig` itself cannot fail). -/
def Env.writeJson (env : Env) (fs : FS) (p : String) (j : Json) : Option FS :=
  if env.failWrite p then none
  else some (fs.writeFile p (FileData.jsonData j))

/-- `fs::create_dir_all(p)`.  The model records the directory itself;
no claim depends on implicitly created ancestor directories. -/
def Env.createDirAll (env : Env) (fs : FS) (p : String) : Option FS :=
  if env.failCreateDir p then none
  else some (fs.mkdirAll p)

/-! ## Path helpers (`std::path`) -/

/-- Split a character list at every occurrence of `sep`. -/
def splitOnChar (sep : Char) : List Char → List (List Char)
  | [] => [[]]
  | c :: cs =>
    let rest := splitOnChar sep cs
    if c = sep then [] :: rest
    else match rest with
      | [] => [[c]]
      | h :: t => (c :: h) :: t

/-- Join character-list components with `sep` between them. -/
def joinWithChar (sep : Char) : List (List Char) → List Char
  | [] => []
  | [c] => c
  | c :: cs => c ++ sep :: joinWithChar sep cs

/-- `Path::parent`, for the plain slash-separated paths this program
builds: drop the last component.  `none` for `""`, `"/"` and bare file
names (Rust returns `Some("")` for the latter, which the callers treat
the same way: the empty directory neither exists nor can be created). -/
def parentOf (p : String) : Option String :=
  if p = "" ∨ p = "/" then none
  else
    match (splitOnChar '/' p.data).dropLast with
    | [] => none
    | [[]] => some "/"
    | comps => some (String.mk (joinWithChar '/' comps))

/-- `Path::with_extension(ext)`: replace the extension of the last
component (the text after its last dot, present for every file name this
program builds) by `ext`. -/
def withExtension (p ext : String) : String :=
  let comps := splitOnChar '/' p.data
  let name := (comps.getLast! )
  let nameParts := splitOnChar '.' name
  let stem := if nameParts.length ≤ 1 then name
    else joinWithChar '.' nameParts.dropLast
  String.mk (joinWithChar '/' (comps.dropLast ++ [stem ++ ('.' :: ext.data)]))

/-- `str::ends_with`. -/
def strEndsWith (s suffix : String) : Bool :=
  List.isSuffixOf suffix.data s.data

/-- `pat` occurs as a contiguous run inside `l`. -/
def listHasRun (pat : List Char) : List Char → Bool
  | [] => pat.isEmpty
  | c :: cs => List.isPrefixOf pat (c :: cs) || listHasRun pat cs

/-- `str::contains` for a literal pattern. -/
def strContains (s pat : String) : Bool :=
  listHasRun pat.data s.data

/-- `str::trim_end_matches('/')`. -/
def trimEndSlashes (s : String) : String :=
  String.mk ((s.data.reverse.dropWhile (fun c => c = '/')).reverse)

/-! ## Data model (`db.rs` lines 5–54) -/

/-- `const CONFIG_FILE: &str = "config.json"`. -/
def CONFIG_FILE : String := "config.json"

/-- AI provider enumeration. -/
inductive AIProvider where
  | OpenAICompatible : AIProvider
  | Anthropic : AIProvider
  | Google : AIProvider
  | Ollama : AIProvider
deriving DecidableEq

/-- AI settings record. -/
structure AISettings where
  provider : AIProvider
  base_url : String
  api_key : String
  model : String
deriving DecidableEq

/-- `impl Default for AISettings`. -/
def AISettings.default : AISettings :=
  { provider := AIProvider.OpenAICompatible
    base_url := "https://api.deepseek.com/v1"
    api_key := ""
    model := "deepseek-chat" }

/-- Persisted configuration. -/
structure AppConfig where
  database_path : Option String
  ai_settings : AISettings
deriving DecidableEq

/-- `#[derive(Default)]` for `AppConfig`: `None` path, default settings. -/
def AppConfig.default : AppConfig :=
  { database_path := none
    ai_settings := AISettings.default }

/-! ## serde (de)serialization of the current schema -/

/-- serde deserialization of a unit-variant enum from its name string. -/
def parseProvider : Json → Option AIProvider
  | .str "OpenAICompatible" => some AIProvider.OpenAICompatible
  | .str "Anthropic" => some AIProvider.Anthropic
  | .str "Google" => some AIProvider.Google
  | .str "Ollama" => some AIProvider.Ollama
  | _ => none

/-- Strict serde parse of `AISettings`: `provider` is `#[serde(default)]`,
the three string fields are required; unknown fields are ignored. -/
def parseAISettings (j : Json) : Option AISettings :=
  match j with
  | .obj _ => do
    let provider ← match j.get "provider" with
      | none => some AIProvider.OpenAICompatible
      | some v => parseProvider v
    let base_url ← (j.get "base_url").bind Json.asStr
    let api_key ← (j.get "api_key").bind Json.asStr
    let model ← (j.get "model").bind Json.asStr
    some { provider, base_url, api_key, model }
  | _ => none

/-- Strict serde parse of `AppConfig`: `database_path` is an `Option`
(missing or `null` give `None`, a non-string non-null value is an
error), `ai_settings` is `#[serde(default)]`. -/
def parseAppConfig (j : Json) : Option AppConfig :=
  match j with
  | .obj _ => do
    let database_path ← match j.get "database_path" with
      | none => some Option.none
      | some Json.null => some Option.none
      | some (Json.str s) => some (some s)
      | some _ => none
    let ai_settings ← match j.get "ai_settings" with
      | none => some AISettings.default
      | some v => parseAISettings v
    some { database_path, ai_settings }
  | _ => none

def AIProvider.toJson : AIProvider → Json
  | .OpenAICompatible => .str "OpenAICompatible"
  | .Anthropic => .str "Anthropic"
  | .Google => .str "Google"
  | .Ollama => .str "Ollama"

def AISettings.toJson (s : AISettings) : Json :=
  .obj [("provider", s.provider.toJson), ("base_url", .str s.base_url),
        ("api_key", .str s.api_key), ("model", .str s.model)]

/-- serde serialization of `AppConfig` (`serde_json::to_string_pretty`),
kept as the JSON value the written text denotes. -/
def AppConfig.toJson (c : AppConfig) : Json :=
  .obj [("database_path", match c.database_path with
          | none => Json.null
          | some s => Json.str s),
        ("ai_settings", c.ai_settings.toJson)]

/-! ## Operations (`db.rs` lines 56–339, `commands.rs` lines 202–216) -/

/-- `get_config_path` (db.rs 57–69): resolve the app-data directory,
create it if absent, and return the path of `config.json` inside it. -/
def get_config_path (env : Env) (fs : FS) : Except String String × FS :=
  match env.appDataDir with
  | none => (.error "获取应用数据目录失败", fs)
  | some app_data_dir =>
    if fs.dirExists app_data_dir then
      (.ok (app_data_dir ++ "/" ++ CONFIG_FILE), fs)
    else match env.createDirAll fs app_data_dir with
      | some fs1 => (.ok (app_data_dir ++ "/" ++ CONFIG_FILE), fs1)
      | none => (.error "创建应用数据目录失败", fs)

/-- `save_config_internal` (db.rs 190–196). -/
def save_config_internal (env : Env) (fs : FS) (config_path : String)
    (config : AppConfig) : Except String Unit × FS :=
  match env.writeJson fs config_path config.toJson with
  | some fs1 => (.ok (), fs1)
  | none => (.error "保存配置文件失败", fs)

/-- `value.get(key).and_then(|v| v.as_str())`. -/
def getStr (j : Json) (key : String) : Option String :=
  match j.get key with
  | some v => v.asStr
  | none => none

/-- Legacy migration inside `load_config` (db.rs 89–129): the old config
parsed as a generic JSON value, fields extracted defensively onto the
defaults; a legacy `base_url` without a `/v1` suffix or `/v4` segment
gets `/v1` appended after trailing slashes are trimmed. -/
def migrateConfig (old : Json) : AppConfig :=
  let c0 := AppConfig.default
  let c1 := match old.get "database_path" with
    | some v =>
      match v.asStr with
      | some db_path =>
        if db_path = "" then c0 else { c0 with database_path := some db_path }
      | none => c0
    | none => c0
  match old.get "ai_settings" with
  | none => c1
  | some ai =>
    let c2 := match getStr ai "base_url" with
      | some base_url =>
        let migrated_url :=
          if (strEndsWith base_url "/v1" || strContains base_url "/v4") then
            base_url
          else
            trimEndSlashes base_url ++ "/v1"
        { c1 with ai_settings :=
            { c1.ai_settings with base_url := migrated_url } }
      | none => c1
    let c3 := match getStr ai "api_key" with
      | some api_key =>
        { c2 with ai_settings := { c2.ai_settings with api_key := api_key } }
      | none => c2
    let c4 := match getStr ai "model" with
      | some model =>
        { c3 with ai_settings := { c3.ai_settings with model := model } }
      | none => c3
    match getStr ai "provider" with
    | some provider =>
      { c4 with ai_settings := { c4.ai_settings with provider :=
          match provider with
          | "Anthropic" => AIProvider.Anthropic
          | "Google" => AIProvider.Google
          | "Ollama" => AIProvider.Ollama
          | _ => AIProvider.OpenAICompatible } }
    | none => c4

/-- `load_config` (db.rs 72–187): strict parse, else legacy migration,
else backup-assisted recovery; parse failures never surface as errors,
only directory-resolution and read failures do. -/
def load_config (env : Env) (fs : FS) : Except String AppConfig × FS :=
  match get_config_path env fs with
  | (.error e, fs1) => (.error e, fs1)
  | (.ok config_path, fs1) =>
    if fs1.fileExists config_path then
      if env.failRead config_path then (.error "读取配置文件失败", fs1)
      else match fs1.readFile config_path with
        | none => (.error "读取配置文件失败", fs1)
        | some (.jsonData j) =>
          match parseAppConfig j with
          | some config => (.ok config, fs1)
          | none =>
            let new_config := migrateConfig j
            match save_config_internal env fs1 config_path new_config with
            | (_, fs2) => (.ok new_config, fs2)
        | some (.rawData _) =>
          let backup_path := withExtension config_path "json.backup"
          let recovered_db_path : Option String :=
            if fs1.fileExists backup_path then
              if env.failRead backup_path then none
              else match fs1.readFile backup_path with
                | some (.jsonData bj) =>
                  match (bj.get "database_path").bind Json.asStr with
                  | some s => if s = "" then none else some s
                  | none => none
                | _ => none
            else none
          let fs2 :=
            if fs1.fileExists backup_path then fs1
            else match env.copyFile fs1 config_path backup_path with
              | some fsb => fsb
              | none => fs1
          let new_config :=
            { AppConfig.default with database_path := recovered_db_path }
          match save_config_internal env fs2 config_path new_config with
          | (_, fs3) => (.ok new_config, fs3)
    else (.ok AppConfig.default, fs1)

/-- `save_config` (db.rs 199–206). -/
def save_config (env : Env) (fs : FS) (config : AppConfig) :
    Except String Unit × FS :=
  match get_config_path env fs with
  | (.error e, fs1) => (.error e, fs1)
  | (.ok config_path, fs1) =>
    match env.writeJson fs1 config_path config.toJson with
    | some fs2 => (.ok (), fs2)
    | none => (.error "保存配置文件失败", fs1)

/-- `get_default_database_path` (db.rs 209–222). -/
def get_default_database_path (env : Env) (fs : FS) :
    Except String String × FS :=
  match env.appDataDir with
  | none => (.error "获取应用数据目录失败", fs)
  | some app_data_dir =>
    if fs.dirExists app_data_dir then
      (.ok (app_data_dir ++ "/jdnotes.db"), fs)
    else match env.createDirAll fs app_data_dir with
      | some fs1 => (.ok (app_data_dir ++ "/jdnotes.db"), fs1)
      | none => (.error "创建应用数据目录失败", fs)

/-- `get_database_path` (db.rs 225–259): honor the stored override when
its parent directory exists or can be created, otherwise fall back to
the default path without touching the stored config. -/
def get_database_path (env : Env) (fs : FS) : Except String String × FS :=
  match load_config env fs with
  | (.error e, fs1) => (.error e, fs1)
  | (.ok config, fs1) =>
    match config.database_path with
    | some custom_path =>
      match parentOf custom_path with
      | some parent =>
        if fs1.dirExists parent then (.ok custom_path, fs1)
        else match env.createDirAll fs1 parent with
          | some fs2 => (.ok custom_path, fs2)
          | none => get_default_database_path env fs1
      | none => get_default_database_path env fs1
    | none => get_default_database_path env fs1

/-- `get_database_size` (db.rs 274–283): 0 for a missing file, metadata
length otherwise. -/
def get_database_size (env : Env) (fs : FS) : Except String Nat × FS :=
  match get_database_path env fs with
  | (.error e, fs1) => (.error e, fs1)
  | (.ok db_path, fs1) =>
    if fs1.fileExists db_path then
      if env.failMetadata db_path then (.error "获取数据库文件信息失败", fs1)
      else match fs1.readFile db_path with
        | some d => (.ok d.len, fs1)
        | none => (.error "获取数据库文件信息失败", fs1)
    else (.ok 0, fs1)

/-- Config backup block of `change_database_location` (db.rs 296–303):
copy an existing config file to its `.json.backup` sibling; a copy
failure is fatal. -/
def backup_config_step (env : Env) (fs : FS) (config_path : String) :
    Except String Unit × FS :=
  let config_backup_path := withExtension config_path "json.backup"
  if fs.fileExists config_path then
    match env.copyFile fs config_path config_backup_path with
    | some fs2 => (.ok (), fs2)
    | none => (.error "备份配置文件失败", fs)
  else (.ok (), fs)

/-- Target directory block of `change_database_location` (db.rs
305–311): create the new path's parent if absent; failure is fatal. -/
def ensure_target_dir_step (env : Env) (fs : FS) (new_path : String) :
    Except String Unit × FS :=
  match parentOf new_path with
  | some parent =>
    if fs.dirExists parent then (.ok (), fs)
    else match env.createDirAll fs parent with
      | some fs2 => (.ok (), fs2)
      | none => (.error "创建目标目录失败", fs)
  | none => (.ok (), fs)

/-- Database copy block of `change_database_location` (db.rs 313–329):
when the source database exists, back up any same-named target file to
`.db.backup` and copy the database; either copy failing is fatal. -/
def copy_database_step (env : Env) (fs : FS) (current_path new_path : String) :
    Except String Unit × FS :=
  if fs.fileExists current_path then
    match (if fs.fileExists new_path then
             match env.copyFile fs new_path (withExtension new_path "db.backup") with
             | some fs2 => (Except.ok (), fs2)
             | none => (Except.error "备份目标位置已存在的文件失败", fs)
           else (Except.ok (), fs) : Except String Unit × FS) with
    | (.error e, fs2) => (.error e, fs2)
    | (.ok _, fs2) =>
      match env.copyFile fs2 current_path new_path with
      | some fs3 => (Except.ok (), fs3)
      | none => (Except.error "复制数据库文件失败", fs2)
  else (.ok (), fs)

/-- `change_database_location` (db.rs 289–339): back up the config, make
sure the target directory exists, copy the database (backing up a
same-named target file first), then reload the config, point its
`database_path` at the new location and save it. -/
def change_database_location (env : Env) (fs : FS) (new_dir : String) :
    Except String String × FS :=
  match get_database_path env fs with
  | (.error e, fs1) => (.error e, fs1)
  | (.ok current_path, fs1) =>
    let new_path := new_dir ++ "/jdnotes.db"
    match get_config_path env fs1 with
    | (.error e, fs2) => (.error e, fs2)
    | (.ok config_path, fs2) =>
      match backup_config_step env fs2 config_path with
      | (.error e, fs3) => (.error e, fs3)
      | (.ok _, fs3) =>
        match ensure_target_dir_step env fs3 new_path with
        | (.error e, fs4) => (.error e, fs4)
        | (.ok _, fs4) =>
          match copy_database_step env fs4 current_path new_path with
          | (.error e, fs5) => (.error e, fs5)
          | (.ok _, fs5) =>
            match load_config env fs5 with
            | (.error e, fs6) => (.error e, fs6)
            | (.ok config, fs6) =>
              match save_config env fs6
                  { config with database_path := some new_path } with
              | (.error e, fs7) => (.error e, fs7)
              | (.ok _, fs7) => (.ok new_path, fs7)

/-- `import_from_indexeddb` (commands.rs 203–216): count the entries of
the optional `notes` and `chatMessages` arrays and always succeed. -/
def import_from_indexeddb (data : Json) : Except String Json :=
  let notes := (data.get "notes").bind Json.asArray
  let messages := (data.get "chatMessages").bind Json.asArray
  let notes_count := (notes.map List.length).getD 0
  let messages_count := (messages.map List.length).getD 0
  Except.ok (Json.obj
    [("success", Json.bool true),
     ("notes_imported", Json.num notes_count),
     ("messages_imported", Json.num messages_count)])

/-- The path `get_config_path` resolves to for app-data directory `dir`. -/
def configPathOf (dir : String) : String := dir ++ "/" ++ CONFIG_FILE

/-- Strict-schema parse of the file stored at `p`, `none` when the file
is absent or does not parse under the current schema. -/
def parseFileConfig (fs : FS) (p : String) : Option AppConfig :=
  match fs.readFile p with
  | some (FileData.jsonData j) => parseAppConfig j
  | _ => none

/-! ## Basic filesystem lemmas -/

theorem readFile_writeFile (fs : FS) (p q : String) (d : FileData) :
    (fs.writeFile p d).readFile q = if q = p then some d else fs.readFile q := by
  by_cases h : q = p
  · subst h
    simp [FS.readFile, FS.writeFile, List.lookup]
  · have hb : (q == p) = false := beq_eq_false_iff_ne.mpr h
    simp [FS.readFile, FS.writeFile, List.lookup, h, hb]

theorem readFile_writeFile_ne (fs : FS) (p q : String) (d : FileData)
    (h : q ≠ p) : (fs.writeFile p d).readFile q = fs.readFile q := by
  rw [readFile_writeFile, if_neg h]

theorem fileExists_writeFile_of (fs : FS) (p q : String) (d : FileData)
    (h : fs.fileExists q = true) :
    (fs.writeFile p d).fileExists q = true := by
  unfold FS.fileExists at h ⊢
  rw [readFile_writeFile]
  by_cases hq : q = p <;> simp [hq, h]

theorem readFile_mkdirAll (fs : FS) (p q : String) :
    (fs.mkdirAll p).readFile q = fs.readFile q := rfl

theorem fileExists_mkdirAll (fs : FS) (p q : String) :
    (fs.mkdirAll p).fileExists q = fs.fileExists q := rfl

theorem dirExists_writeFile (fs : FS) (p q : String) (d : FileData) :
    (fs.writeFile p d).dirExists q = fs.dirExists q := rfl

theorem dirExists_mkdirAll_of (fs : FS) (p q : String)
    (h : fs.dirExists q = true) : (fs.mkdirAll p).dirExists q = true := by
  simp only [FS.dirExists, FS.mkdirAll] at h ⊢
  simp only [List.contains_cons, h, Bool.or_true]

/-! ## serde round-trip -/

theorem parseAppConfig_toJson (c : AppConfig) :
    parseAppConfig c.toJson = some c := by
  obtain ⟨db, pr, bu, ak, mo⟩ := c
  cases db <;> cases pr <;> rfl

/-! ## Behavior of `get_config_path` and `load_config` on well-formed state -/

theorem get_config_path_ok (env : Env) (fs : FS) (dir : String)
    (henv : env.appDataDir = some dir) (hdir : fs.dirExists dir = true) :
    get_config_path env fs = (Except.ok (configPathOf dir), fs) := by
  unfold get_config_path
  rw [henv]
  simp [hdir, configPathOf]

/-- `load_config` on a config file that parses strictly returns it as-is
and leaves the filesystem untouched. -/
theorem load_config_strict (env : Env) (fs : FS) (dir : String) (j : Json)
    (c : AppConfig)
    (henv : env.appDataDir = some dir) (hdir : fs.dirExists dir = true)
    (hfile : fs.readFile (configPathOf dir) = some (FileData.jsonData j))
    (hread : env.failRead (configPathOf dir) = false)
    (hparse : parseAppConfig j = some c) :
    load_config env fs = (Except.ok c, fs) := by
  unfold load_config
  rw [get_config_path_ok env fs dir henv hdir]
  have hex : fs.fileExists (configPathOf dir) = true := by
    unfold FS.fileExists
    rw [hfile]
    rfl
  simp [hex, hread, hfile, hparse]

/-- `load_config` on a missing config file returns the defaults and
leaves the filesystem untouched (given the app-data directory exists). -/
theorem load_config_missing (env : Env) (fs : FS) (dir : String)
    (henv : env.appDataDir = some dir) (hdir : fs.dirExists dir = true)
    (hnofile : fs.fileExists (configPathOf dir) = false) :
    load_config env fs = (Except.ok AppConfig.default, fs) := by
  unfold load_config
  rw [get_config_path_ok env fs dir henv hdir]
  simp [hnofile]

theorem get_default_database_path_ok (env : Env) (fs : FS) (dir : String)
    (henv : env.appDataDir = some dir) (hdir : fs.dirExists dir = true) :
    get_default_database_path env fs = (Except.ok (dir ++ "/jdnotes.db"), fs) := by
  unfold get_default_database_path
  rw [henv]
  simp [hdir]

/-! ## Shared concrete fixtures -/

/-- Fault-free environment with app-data directory `/a`. -/
def envOK : Env :=
  { appDataDir := some "/a"
    failRead := fun _ => false
    failWrite := fun _ => false
    failCopy := fun _ _ => false
    failCreateDir := fun _ => false
    failMetadata := fun _ => false }

/-- The legacy configuration document of testable property three. -/
def legacyDoc : Json := Json.obj
  [("database_path", Json.str "/x/y.db"),
   ("ai_settings", Json.obj
     [("base_url", Json.str "https://h"), ("model", Json.str "m")])]

/-- The configuration `load_config` migrates `legacyDoc` to. -/
def migratedLegacy : AppConfig :=
  { database_path := some "/x/y.db"
    ai_settings :=
      { provider := AIProvider.OpenAICompatible
        base_url := "https://h/v1"
        api_key := ""
        model := "m" } }

/-- The `database_path` produced by legacy migration, as a function of
the legacy document's `database_path` field. -/
theorem migrateConfig_database_path (old : Json) :
    (migrateConfig old).database_path =
      match (old.get "database_path").bind Json.asStr with
      | some s => if s = "" then none else some s
      | none => none := by
  unfold migrateConfig
  cases hdb : old.get "database_path" <;> simp only [Option.bind] <;>
  cases hai : old.get "ai_settings" <;> simp only []
  case none.none => rfl
  case none.some ai =>
    cases hbu : getStr ai "base_url" <;> simp only [] <;>
    cases hak : getStr ai "api_key" <;> simp only [] <;>
    cases hmo : getStr ai "model" <;> simp only [] <;>
    cases hpv : getStr ai "provider" <;> simp only [] <;> rfl
  case some.none v =>
    cases hs : v.asStr <;> simp only []
    · rfl
    · simp [apply_ite AppConfig.database_path, AppConfig.default]
  case some.some v ai =>
    cases hs : v.asStr <;> simp only [] <;>
    cases hbu : getStr ai "base_url" <;> simp only [] <;>
    cases hak : getStr ai "api_key" <;> simp only [] <;>
    cases hmo : getStr ai "model" <;> simp only [] <;>
    cases hpv : getStr ai "provider" <;> simp only [] <;>
    first
      | rfl
      | simp [apply_ite AppConfig.database_path, AppConfig.default]

/-- The entry count `import_from_indexeddb` computes for one optional
array field. -/
theorem arrayCount_eq (o : Option Json) :
    ((o.bind Json.asArray).map List.length).getD 0 =
      match o with
      | some (Json.arr xs) => xs.length
      | _ => 0 := by
  cases o with
  | none => rfl
  | some v => cases v <;> rfl

/-- The filesystem that `load_config` leaves behind on the legacy
document of claim C3. -/
def legacyFS : FS :=
  ⟨[("/a/config.json", FileData.jsonData legacyDoc)], ["/a"]⟩

/-- Claim C3: on the legacy document
`{"database_path": "/x/y.db", "ai_settings": {"base_url": "https://h", "model": "m"}}`
(which fails strict-schema parsing) `load_config` returns
`database_path = some "/x/y.db"`, `base_url = "https://h/v1"` (a `/v1`
suffix appended), provider `OpenAICompatible`, model `"m"`, and persists
the migrated result over the original file so that it then parses under
the current schema. -/
theorem load_config_migrates_legacy_document :
    parseAppConfig legacyDoc = none ∧
    (load_config envOK legacyFS).1 = Except.ok migratedLegacy ∧
    migratedLegacy.database_path = some "/x/y.db" ∧
    migratedLegacy.ai_settings.base_url = "https://h/v1" ∧
    migratedLegacy.ai_settings.provider = AIProvider.OpenAICompatible ∧
    migratedLegacy.ai_settings.model = "m" ∧
    parseFileConfig (load_config envOK legacyFS).2 "/a/config.json" =
      some migratedLegacy :=
  ⟨rfl, rfl, rfl, rfl, rfl, rfl, rfl⟩

/-- A config file whose text is not valid JSON (tag 7), no backup. -/
def corruptFS : FS := ⟨[("/a/config.json", FileData.rawData 7)], ["/a"]⟩

/-- A backup document holding a recoverable database path. -/
def backupDoc : Json := Json.obj [("database_path", Json.str "/bk/z.db")]

/-- A corrupt config file next to an existing backup. -/
def corruptWithBackupFS : FS :=
  ⟨[("/a/config.json", FileData.rawData 7),
    ("/a/config.json.backup", FileData.jsonData backupDoc)], ["/a"]⟩

/-- Claim C4: on a config file that is not JSON at all and has no
backup, `load_config` copies the original bytes to the backup path,
rewrites the file with defaults and returns them, and a second call
parses the rewritten file cleanly without further changes; when a
backup already exists, the `database_path` recovered from it is carried
into the returned and persisted defaults and the backup is not
overwritten. -/
theorem load_config_recovers_corrupt_file :
    (load_config envOK corruptFS).1 = Except.ok AppConfig.default ∧
    (load_config envOK corruptFS).2.readFile "/a/config.json.backup" =
      some (FileData.rawData 7) ∧
    parseFileConfig (load_config envOK corruptFS).2 "/a/config.json" =
      some AppConfig.default ∧
    load_config envOK (load_config envOK corruptFS).2 =
      (Except.ok AppConfig.default, (load_config envOK corruptFS).2) ∧
    (load_config envOK corruptWithBackupFS).1 =
      Except.ok { AppConfig.default with database_path := some "/bk/z.db" } ∧
    parseFileConfig (load_config envOK corruptWithBackupFS).2 "/a/config.json" =
      some { AppConfig.default with database_path := some "/bk/z.db" } ∧
    (load_config envOK corruptWithBackupFS).2.readFile "/a/config.json.backup" =
      some (FileData.jsonData backupDoc) :=
  ⟨rfl, rfl, rfl, rfl, rfl, rfl, rfl⟩

/-- Claim C8: during legacy migration, a `database_path` field holding
the empty string or any non-string JSON value yields no override: the
migrated config has `database_path = none`. -/
theorem migrate_empty_or_nonstring_db_path (old v : Json)
    (hget : old.get "database_path" = some v)
    (hbad : v.asStr = none ∨ v = Json.str "") :
    (migrateConfig old).database_path = none := by
  rw [migrateConfig_database_path, hget]
  rcases hbad with h | h
  · simp [Option.bind, h]
  · subst h
    simp [Option.bind, Json.asStr]

/-- Witness for claim C8 at the concrete legacy document
`{"database_path": ""}`. -/
theorem migrate_empty_or_nonstring_db_path_witness :
    (migrateConfig (Json.obj [("database_path", Json.str "")])).database_path
      = none :=
  migrate_empty_or_nonstring_db_path (Json.obj [("database_path", Json.str "")])
    (Json.str "") rfl (Or.inr rfl)

/-- Claim C10: `import_from_indexeddb` never returns an error: for every
JSON value it reports `success = true` and counts equal to the lengths
of the top-level `notes` and `chatMessages` arrays, 0 when a field is
absent or not an array. -/
theorem import_from_indexeddb_never_fails (data : Json) :
    import_from_indexeddb data =
      Except.ok (Json.obj
        [("success", Json.bool true),
         ("notes_imported", Json.num ((match data.get "notes" with
            | some (Json.arr notes) => notes.length
            | _ => 0 : Nat) : Int)),
         ("messages_imported", Json.num ((match data.get "chatMessages" with
            | some (Json.arr messages) => messages.length
            | _ => 0 : Nat) : Int))]) := by
  simp only [import_from_indexeddb]
  rw [arrayCount_eq (data.get "notes"), arrayCount_eq (data.get "chatMessages")]

/-- A config file that already parses under the current schema. -/
def strictFS : FS :=
  ⟨[("/a/config.json", FileData.jsonData AppConfig.default.toJson)], ["/a"]⟩

/-- Environment in which reading `/a/config.json` fails (for instance a
permission error), everything else succeeding. -/
def envReadFail : Env := { envOK with failRead := fun p => p == "/a/config.json" }

/-- Counterexample to claim C1: when the config file exists but cannot
be read, `load_config` surfaces an error to its caller instead of
returning a default or healed configuration. -/
theorem load_config_fails_on_unreadable_file :
    (load_config envReadFail strictFS).1 = Except.error "读取配置文件失败" := rfl

/-- Claim C1 (amended): `load_config` never fails because of the config
file's contents — whenever the app-data directory resolves and exists
(or can be created) and the config file, if present, can be read, the
result is `Ok`; parse failures are always healed. -/
theorem load_config_ok_unless_fs_access_fails (env : Env) (fs : FS) (dir : String)
    (henv : env.appDataDir = some dir)
    (hdir : fs.dirExists dir = true ∨ env.failCreateDir dir = false)
    (hread : env.failRead (configPathOf dir) = false) :
    ((load_config env fs).1).isOk = true := by
  have key : ∀ fsX : FS, get_config_path env fs = (Except.ok (configPathOf dir), fsX) →
      ((load_config env fs).1).isOk = true := by
    intro fsX hgcp
    unfold load_config
    rw [hgcp]
    by_cases hex : fsX.fileExists (configPathOf dir) = true
    · simp only [hex, if_true, hread, Bool.false_eq_true, if_false]
      cases hrf : fsX.readFile (configPathOf dir) with
      | none =>
        unfold FS.fileExists at hex
        rw [hrf] at hex
        simp at hex
      | some d =>
        cases d with
        | jsonData j =>
          cases hp : parseAppConfig j with
          | some c => simp only [hrf, hp]; rfl
          | none => simp only [hrf, hp]; rfl
        | rawData b => simp only [hrf]; rfl
    · simp only [Bool.not_eq_true] at hex
      simp only [hex, Bool.false_eq_true, if_false]
      rfl
  rcases hdir with h | h
  · exact key fs (get_config_path_ok env fs dir henv h)
  · by_cases h2 : fs.dirExists dir = true
    · exact key fs (get_config_path_ok env fs dir henv h2)
    · refine key (fs.mkdirAll dir) ?_
      unfold get_config_path
      rw [henv]
      simp only [Bool.not_eq_true] at h2
      simp [h2, Env.createDirAll, h, configPathOf]

/-- Witness for the amended claim C1 on a readable well-formed state. -/
theorem load_config_ok_unless_fs_access_fails_witness :
    ((load_config envOK strictFS).1).isOk = true :=
  load_config_ok_unless_fs_access_fails envOK strictFS "/a" rfl (Or.inl rfl) rfl

/-- Counterexample to claim C7: with no config file and a missing
app-data directory, `load_config` returns the defaults but creates the
app-data directory — a filesystem write. -/
theorem load_config_creates_app_data_dir :
    (load_config envOK ⟨[], []⟩).1 = Except.ok AppConfig.default ∧
    (FS.mk [] []).dirExists "/a" = false ∧
    (load_config envOK ⟨[], []⟩).2.dirExists "/a" = true :=
  ⟨rfl, rfl, rfl⟩

/-- Claim C7 (amended): when the config file does not exist,
`load_config` returns exactly the documented default `AppConfig` and
writes no file; when the app-data directory already exists the
filesystem is left completely untouched (its creation being the only
possible modification). -/
theorem load_config_defaults_when_file_missing (env : Env) (fs : FS) (dir : String)
    (henv : env.appDataDir = some dir)
    (hdir : fs.dirExists dir = true ∨ env.failCreateDir dir = false)
    (hnofile : fs.fileExists (configPathOf dir) = false) :
    (load_config env fs).1 = Except.ok AppConfig.default ∧
    (load_config env fs).2.files = fs.files ∧
    (fs.dirExists dir = true →
      load_config env fs = (Except.ok AppConfig.default, fs)) ∧
    AppConfig.default.database_path = none ∧
    AppConfig.default.ai_settings.provider = AIProvider.OpenAICompatible ∧
    AppConfig.default.ai_settings.base_url = "https://api.deepseek.com/v1" ∧
    AppConfig.default.ai_settings.model = "deepseek-chat" ∧
    AppConfig.default.ai_settings.api_key = "" := by
  by_cases h2 : fs.dirExists dir = true
  · have hl := load_config_missing env fs dir henv h2 hnofile
    exact ⟨by rw [hl], by rw [hl], fun _ => hl, rfl, rfl, rfl, rfl, rfl⟩
  · simp only [Bool.not_eq_true] at h2
    rcases hdir with h | h
    · rw [h] at h2
      cases h2
    · have hnofile2 : fs.fileExists (dir ++ "/" ++ CONFIG_FILE) = false := hnofile
      have hl : load_config env fs = (Except.ok AppConfig.default, fs.mkdirAll dir) := by
        unfold load_config get_config_path
        rw [henv]
        simp [h2, Env.createDirAll, h, fileExists_mkdirAll, hnofile2]
      refine ⟨by rw [hl], by rw [hl]; rfl, ?_, rfl, rfl, rfl, rfl, rfl⟩
      intro hc
      rw [h2] at hc
      cases hc

/-- Witness for the amended claim C7: missing config file, app-data
directory present. -/
theorem load_config_defaults_when_file_missing_witness :
    (load_config envOK ⟨[], ["/a"]⟩).1 = Except.ok AppConfig.default :=
  (load_config_defaults_when_file_missing envOK ⟨[], ["/a"]⟩ "/a"
    rfl (Or.inl rfl) rfl).1

/-- Claim C9: `get_database_size` returns `Ok 0` when the effective
database file does not exist; it errors only when path resolution fails
or the file exists and its metadata cannot be read. -/
theorem get_database_size_zero_when_missing (env : Env) (fs : FS) :
    (∀ db_path fs1, get_database_path env fs = (Except.ok db_path, fs1) →
       fs1.fileExists db_path = false →
       get_database_size env fs = (Except.ok 0, fs1)) ∧
    (∀ e, (get_database_size env fs).1 = Except.error e →
       (get_database_path env fs).1 = Except.error e ∨
       (∃ db_path fs1, get_database_path env fs = (Except.ok db_path, fs1) ∧
          fs1.fileExists db_path = true ∧ env.failMetadata db_path = true)) := by
  constructor
  · intro db_path fs1 hget hmiss
    unfold get_database_size
    rw [hget]
    simp [hmiss]
  · intro e herr
    unfold get_database_size at herr
    cases hget : get_database_path env fs with
    | mk r fs1 =>
      rw [hget] at herr
      cases r with
      | error e2 =>
        left
        simp only [] at herr ⊢
        have he : e2 = e := by simpa using herr
        rw [he]
      | ok db_path =>
        by_cases hex : fs1.fileExists db_path = true
        · by_cases hmeta : env.failMetadata db_path = true
          · exact Or.inr ⟨db_path, fs1, rfl, hex, hmeta⟩
          · exfalso
            simp only [Bool.not_eq_true] at hmeta
            cases hrf : fs1.readFile db_path with
            | some d => simp [hex, hmeta, hrf] at herr
            | none =>
              unfold FS.fileExists at hex
              rw [hrf] at hex
              simp at hex
        · exfalso
          simp only [Bool.not_eq_true] at hex
          simp [hex] at herr

/-- Witness for claim C9: no database file, size reported as 0. -/
theorem get_database_size_zero_when_missing_witness :
    get_database_size envOK strictFS = (Except.ok 0, strictFS) :=
  (get_database_size_zero_when_missing envOK strictFS).1
    "/a/jdnotes.db" strictFS rfl rfl

/-- Claim C5: with a stored `database_path` override whose parent
directory does not exist and cannot be created, `get_database_path`
returns the default path for that call and leaves the filesystem — in
particular the stored config file with its override — unmodified; a
later call in which the parent directory exists, or can be created,
returns the override path. -/
theorem get_database_path_falls_back_when_parent_uncreatable
    (env env2 : Env) (fs : FS) (dir custom parent : String) (j : Json)
    (c : AppConfig)
    (henv : env.appDataDir = some dir) (hdir : fs.dirExists dir = true)
    (hfile : fs.readFile (configPathOf dir) = some (FileData.jsonData j))
    (hread : env.failRead (configPathOf dir) = false)
    (hparse : parseAppConfig j = some c)
    (hover : c.database_path = some custom)
    (hpar : parentOf custom = some parent)
    (hnodir : fs.dirExists parent = false)
    (hfail : env.failCreateDir parent = true)
    (henv2 : env2.appDataDir = some dir)
    (hread2 : env2.failRead (configPathOf dir) = false)
    (hfail2 : env2.failCreateDir parent = false) :
    get_database_path env fs = (Except.ok (dir ++ "/jdnotes.db"), fs) ∧
    get_database_path env (fs.mkdirAll parent) =
      (Except.ok custom, fs.mkdirAll parent) ∧
    get_database_path env2 fs = (Except.ok custom, fs.mkdirAll parent) := by
  refine ⟨?_, ?_, ?_⟩
  · unfold get_database_path
    rw [load_config_strict env fs dir j c henv hdir hfile hread hparse]
    simp only [hover, hpar, hnodir, Bool.false_eq_true, if_false,
      Env.createDirAll, hfail, if_true]
    exact get_default_database_path_ok env fs dir henv hdir
  · unfold get_database_path
    rw [load_config_strict env (fs.mkdirAll parent) dir j c henv
      (dirExists_mkdirAll_of fs parent dir hdir) hfile hread hparse]
    have hd : (fs.mkdirAll parent).dirExists parent = true := by
      simp [FS.dirExists, FS.mkdirAll]
    simp only [hover, hpar, hd, if_true]
  · unfold get_database_path
    rw [load_config_strict env2 fs dir j c henv2 hdir hfile hread2 hparse]
    simp only [hover, hpar, hnodir, Bool.false_eq_true, if_false,
      Env.createDirAll, hfail2, if_true]

/-- Config carrying the override used by the claim C5 witness. -/
def overrideConfig : AppConfig :=
  { database_path := some "/c/x.db", ai_settings := AISettings.default }

/-- Filesystem whose stored config holds the `/c/x.db` override. -/
def overrideFS : FS :=
  ⟨[("/a/config.json", FileData.jsonData overrideConfig.toJson)], ["/a"]⟩

/-- Environment in which the override's parent directory `/c` cannot be
created. -/
def envMkdirFail : Env := { envOK with failCreateDir := fun p => p == "/c" }

/-- Witness for claim C5: the fallback call at a concrete state. -/
theorem get_database_path_falls_back_witness :
    get_database_path envMkdirFail overrideFS =
      (Except.ok ("/a" ++ "/jdnotes.db"), overrideFS) :=
  (get_database_path_falls_back_when_parent_uncreatable envMkdirFail envOK
    overrideFS "/a" "/c/x.db" "/c" overrideConfig.toJson overrideConfig
    rfl rfl rfl rfl rfl rfl rfl rfl rfl rfl rfl rfl).1

/-! ## Step lemmas for `change_database_location` -/

theorem readFile_of_files_eq (fs1 fs2 : FS) (p : String)
    (h : fs1.files = fs2.files) : fs1.readFile p = fs2.readFile p := by
  unfold FS.readFile
  rw [h]

theorem backup_config_step_ok (env : Env) (fs : FS) (config_path : String)
    (d : FileData) (hrf : fs.readFile config_path = some d)
    (hcopy : env.failCopy config_path
      (withExtension config_path "json.backup") = false) :
    backup_config_step env fs config_path =
      (Except.ok (), fs.writeFile (withExtension config_path "json.backup") d) := by
  unfold backup_config_step
  have hex : fs.fileExists config_path = true := by
    unfold FS.fileExists
    rw [hrf]
    rfl
  simp [hex, Env.copyFile, hcopy, hrf]

theorem backup_config_step_fail (env : Env) (fs : FS) (config_path : String)
    (hex : fs.fileExists config_path = true)
    (hcopy : env.failCopy config_path
      (withExtension config_path "json.backup") = true) :
    backup_config_step env fs config_path =
      (Except.error "备份配置文件失败", fs) := by
  unfold backup_config_step
  simp [hex, Env.copyFile, hcopy]

theorem ensure_target_dir_step_exists (env : Env) (fs : FS)
    (new_path parent : String) (hpar : parentOf new_path = some parent)
    (hd : fs.dirExists parent = true) :
    ensure_target_dir_step env fs new_path = (Except.ok (), fs) := by
  unfold ensure_target_dir_step
  rw [hpar]
  simp [hd]

theorem ensure_target_dir_step_creates (env : Env) (fs : FS)
    (new_path parent : String) (hpar : parentOf new_path = some parent)
    (hd : fs.dirExists parent = false) (hf : env.failCreateDir parent = false) :
    ensure_target_dir_step env fs new_path =
      (Except.ok (), fs.mkdirAll parent) := by
  unfold ensure_target_dir_step
  rw [hpar]
  simp [hd, Env.createDirAll, hf]

theorem ensure_target_dir_step_fail (env : Env) (fs : FS)
    (new_path parent : String) (hpar : parentOf new_path = some parent)
    (hd : fs.dirExists parent = false) (hf : env.failCreateDir parent = true) :
    ensure_target_dir_step env fs new_path =
      (Except.error "创建目标目录失败", fs) := by
  unfold ensure_target_dir_step
  rw [hpar]
  simp [hd, Env.createDirAll, hf]

theorem copy_database_step_no_source (env : Env) (fs : FS)
    (current_path new_path : String)
    (h : fs.fileExists current_path = false) :
    copy_database_step env fs current_path new_path = (Except.ok (), fs) := by
  unfold copy_database_step
  simp [h]

theorem save_config_ok (env : Env) (fs : FS) (dir : String) (c : AppConfig)
    (henv : env.appDataDir = some dir) (hdir : fs.dirExists dir = true)
    (hwrite : env.failWrite (configPathOf dir) = false) :
    save_config env fs c =
      (Except.ok (), fs.writeFile (configPathOf dir)
        (FileData.jsonData c.toJson)) := by
  unfold save_config
  rw [get_config_path_ok env fs dir henv hdir]
  simp [Env.writeJson, hwrite]

/-- On a strictly parseable config, `get_database_path` never changes the
stored files and keeps the app-data directory in existence. -/
theorem get_database_path_preserves_files (env : Env) (fs : FS) (dir : String)
    (j : Json) (c : AppConfig)
    (henv : env.appDataDir = some dir) (hdir : fs.dirExists dir = true)
    (hfile : fs.readFile (configPathOf dir) = some (FileData.jsonData j))
    (hread : env.failRead (configPathOf dir) = false)
    (hparse : parseAppConfig j = some c) :
    (get_database_path env fs).2.files = fs.files ∧
    (get_database_path env fs).2.dirExists dir = true := by
  unfold get_database_path
  rw [load_config_strict env fs dir j c henv hdir hfile hread hparse]
  simp only []
  cases hdb : c.database_path with
  | none =>
    simp only []
    rw [get_default_database_path_ok env fs dir henv hdir]
    exact ⟨rfl, hdir⟩
  | some custom =>
    simp only []
    cases hp : parentOf custom with
    | none =>
      simp only []
      rw [get_default_database_path_ok env fs dir henv hdir]
      exact ⟨rfl, hdir⟩
    | some parent =>
      simp only []
      by_cases hd : fs.dirExists parent = true
      · simp only [hd, if_true]
        exact ⟨by trivial, hdir⟩
      · simp only [Bool.not_eq_true] at hd
        simp only [hd, Bool.false_eq_true, if_false, Env.createDirAll]
        by_cases hf : env.failCreateDir parent = true
        · simp only [hf, if_true]
          rw [get_default_database_path_ok env fs dir henv hdir]
          exact ⟨rfl, hdir⟩
        · simp only [Bool.not_eq_true] at hf
          simp only [hf, Bool.false_eq_true, if_false]
          exact ⟨rfl, dirExists_mkdirAll_of fs parent dir hdir⟩

/-- Claim C6: when the current database file does not exist,
`change_database_location` still succeeds: no file is copied to or
created at the target path (its entry is untouched), but the stored
config's `database_path` is updated to the new target path and the new
path is returned. -/
theorem change_database_location_without_source_db
    (env : Env) (fs fs1 : FS) (dir new_dir current_path : String)
    (j : Json) (c : AppConfig)
    (henv : env.appDataDir = some dir) (hdir : fs.dirExists dir = true)
    (hfile : fs.readFile (configPathOf dir) = some (FileData.jsonData j))
    (hread : env.failRead (configPathOf dir) = false)
    (hparse : parseAppConfig j = some c)
    (hget : get_database_path env fs = (Except.ok current_path, fs1))
    (hnosrc : fs1.fileExists current_path = false)
    (hpar : parentOf (new_dir ++ "/jdnotes.db") = some new_dir)
    (hb_ne_cp : withExtension (configPathOf dir) "json.backup" ≠ configPathOf dir)
    (hnp_ne_cp : new_dir ++ "/jdnotes.db" ≠ configPathOf dir)
    (hnp_ne_cb : new_dir ++ "/jdnotes.db" ≠
      withExtension (configPathOf dir) "json.backup")
    (hcur_ne_cb : current_path ≠ withExtension (configPathOf dir) "json.backup")
    (hcopyb : env.failCopy (configPathOf dir)
        (withExtension (configPathOf dir) "json.backup") = false)
    (hmk : fs1.dirExists new_dir = true ∨ env.failCreateDir new_dir = false)
    (hwrite : env.failWrite (configPathOf dir) = false) :
    (change_database_location env fs new_dir).1 =
      Except.ok (new_dir ++ "/jdnotes.db") ∧
    (change_database_location env fs new_dir).2.readFile
        (new_dir ++ "/jdnotes.db") = fs.readFile (new_dir ++ "/jdnotes.db") ∧
    parseFileConfig (change_database_location env fs new_dir).2
        (configPathOf dir) =
      some { c with database_path := some (new_dir ++ "/jdnotes.db") } := by
  have hpf := get_database_path_preserves_files env fs dir j c henv hdir hfile hread hparse
  rw [hget] at hpf
  simp only [] at hpf
  obtain ⟨hfiles1, hdirs1⟩ := hpf
  have hrf1 : fs1.readFile (configPathOf dir) = some (FileData.jsonData j) := by
    rw [readFile_of_files_eq fs1 fs _ hfiles1]
    exact hfile
  have hback := backup_config_step_ok env fs1 (configPathOf dir)
    (FileData.jsonData j) hrf1 hcopyb
  have hens : ∃ fs4 : FS,
      ensure_target_dir_step env
        (fs1.writeFile (withExtension (configPathOf dir) "json.backup")
          (FileData.jsonData j)) (new_dir ++ "/jdnotes.db") =
        (Except.ok (), fs4) ∧
      fs4.files = (fs1.writeFile (withExtension (configPathOf dir) "json.backup")
          (FileData.jsonData j)).files ∧
      fs4.dirExists dir = true := by
    rcases hmk with hmk | hmk
    · exact ⟨_, ensure_target_dir_step_exists env _ _ new_dir hpar hmk, rfl, hdirs1⟩
    · by_cases hd : fs1.dirExists new_dir = true
      · exact ⟨_, ensure_target_dir_step_exists env _ _ new_dir hpar hd, rfl, hdirs1⟩
      · simp only [Bool.not_eq_true] at hd
        refine ⟨_, ensure_target_dir_step_creates env _ _ new_dir hpar hd hmk, rfl, ?_⟩
        exact dirExists_mkdirAll_of _ new_dir dir hdirs1
  obtain ⟨fs4, hens_eq, hens_files, hens_dir⟩ := hens
  have hnosrc4 : fs4.fileExists current_path = false := by
    unfold FS.fileExists
    rw [readFile_of_files_eq fs4 _ _ hens_files,
        readFile_writeFile_ne fs1 _ current_path _ hcur_ne_cb]
    unfold FS.fileExists at hnosrc
    exact hnosrc
  have hcopy := copy_database_step_no_source env fs4 current_path
    (new_dir ++ "/jdnotes.db") hnosrc4
  have hrf4 : fs4.readFile (configPathOf dir) = some (FileData.jsonData j) := by
    rw [readFile_of_files_eq fs4 _ _ hens_files,
        readFile_writeFile_ne fs1 _ _ _ (Ne.symm hb_ne_cp)]
    exact hrf1
  have hload := load_config_strict env fs4 dir j c henv hens_dir hrf4 hread hparse
  have hsave := save_config_ok env fs4 dir
    { c with database_path := some (new_dir ++ "/jdnotes.db") } henv hens_dir hwrite
  unfold change_database_location
  rw [hget]
  simp only []
  rw [get_config_path_ok env fs1 dir henv hdirs1]
  simp only []
  rw [hback]
  simp only []
  rw [hens_eq]
  simp only []
  rw [hcopy]
  simp only []
  rw [hload]
  simp only []
  rw [hsave]
  simp only []
  refine ⟨by trivial, ?_, ?_⟩
  · rw [readFile_writeFile_ne _ _ _ _ hnp_ne_cp,
        readFile_of_files_eq fs4 _ _ hens_files,
        readFile_writeFile_ne _ _ _ _ hnp_ne_cb,
        readFile_of_files_eq fs1 fs _ hfiles1]
  · unfold parseFileConfig
    rw [readFile_writeFile]
    simp only [if_pos rfl]
    exact parseAppConfig_toJson _

/-- Witness for claim C6 at a concrete state with no database file. -/
theorem change_database_location_without_source_db_witness :
    (change_database_location envOK strictFS "/n").1 =
      Except.ok ("/n" ++ "/jdnotes.db") :=
  (change_database_location_without_source_db envOK strictFS strictFS "/a" "/n"
    "/a/jdnotes.db" AppConfig.default.toJson AppConfig.default
    rfl rfl rfl rfl rfl rfl rfl rfl (by decide) (by decide) (by decide)
    (by decide) rfl (Or.inr rfl) rfl).1

theorem fileExists_of_files_eq (fs1 fs2 : FS) (p : String)
    (h : fs1.files = fs2.files) : fs1.fileExists p = fs2.fileExists p := by
  unfold FS.fileExists
  rw [readFile_of_files_eq fs1 fs2 p h]

theorem copy_database_step_target_backup_fail (env : Env) (fs : FS)
    (current_path new_path : String)
    (hsrc : fs.fileExists current_path = true)
    (htgt : fs.fileExists new_path = true)
    (hbf : env.failCopy new_path (withExtension new_path "db.backup") = true) :
    copy_database_step env fs current_path new_path =
      (Except.error "备份目标位置已存在的文件失败", fs) := by
  unfold copy_database_step
  simp [hsrc, htgt, Env.copyFile, hbf]

theorem copy_database_step_main_copy_fail (env : Env) (fs : FS)
    (current_path new_path : String)
    (hsrc : fs.fileExists current_path = true)
    (hfail : env.failCopy current_path new_path = true) :
    (copy_database_step env fs current_path new_path).1.isOk = false ∧
    ∀ q, q ≠ withExtension new_path "db.backup" →
      (copy_database_step env fs current_path new_path).2.readFile q =
        fs.readFile q := by
  unfold copy_database_step
  simp only [hsrc, if_true]
  by_cases htgt : fs.fileExists new_path = true
  · simp only [htgt, if_true]
    by_cases hbf : env.failCopy new_path (withExtension new_path "db.backup") = true
    · simp only [Env.copyFile, hbf, if_true]
      exact ⟨by trivial, fun q hq => by trivial⟩
    · simp only [Bool.not_eq_true] at hbf
      simp only [Env.copyFile, hbf, Bool.false_eq_true, if_false]
      cases hrd : fs.readFile new_path with
      | none =>
        unfold FS.fileExists at htgt
        rw [hrd] at htgt
        simp at htgt
      | some d =>
        simp only [hfail, if_true]
        refine ⟨rfl, fun q hq => ?_⟩
        exact readFile_writeFile_ne fs _ q d hq
  · simp only [Bool.not_eq_true] at htgt
    simp only [htgt, Bool.false_eq_true, if_false]
    simp only [Env.copyFile, hfail, if_true]
    exact ⟨by trivial, fun q hq => by trivial⟩

theorem copy_database_step_isOk (env : Env) (fs : FS)
    (current_path new_path : String)
    (hsrc : fs.fileExists current_path = true)
    (hok : (copy_database_step env fs current_path new_path).1.isOk = true) :
    env.failCopy current_path new_path = false ∧
    (copy_database_step env fs current_path new_path).2.fileExists new_path = true ∧
    (copy_database_step env fs current_path new_path).2.dirs = fs.dirs ∧
    ∀ q, q ≠ withExtension new_path "db.backup" → q ≠ new_path →
      (copy_database_step env fs current_path new_path).2.readFile q =
        fs.readFile q := by
  by_cases hmf : env.failCopy current_path new_path = true
  · exfalso
    obtain ⟨h1, _⟩ := copy_database_step_main_copy_fail env fs
      current_path new_path hsrc hmf
    rw [h1] at hok
    cases hok
  · simp only [Bool.not_eq_true] at hmf
    refine ⟨hmf, ?_⟩
    unfold copy_database_step at hok ⊢
    simp only [hsrc, if_true] at hok ⊢
    by_cases htgt : fs.fileExists new_path = true
    · simp only [htgt, if_true] at hok ⊢
      by_cases hbf : env.failCopy new_path (withExtension new_path "db.backup") = true
      · simp [Env.copyFile, hbf] at hok
        cases hok
      · simp only [Bool.not_eq_true] at hbf
        simp only [Env.copyFile, hbf, Bool.false_eq_true, if_false] at hok ⊢
        cases hrd : fs.readFile new_path with
        | none =>
          unfold FS.fileExists at htgt
          rw [hrd] at htgt
          simp at htgt
        | some d =>
          simp only [hrd] at hok ⊢
          cases hrdc : (fs.writeFile (withExtension new_path "db.backup") d).readFile
              current_path with
          | none =>
            have hmono := fileExists_writeFile_of fs
              (withExtension new_path "db.backup") current_path d hsrc
            unfold FS.fileExists at hmono
            rw [hrdc] at hmono
            simp at hmono
          | some dc =>
            simp only [hmf, Bool.false_eq_true, if_false, hrdc]
            refine ⟨?_, rfl, ?_⟩
            · unfold FS.fileExists
              rw [readFile_writeFile]
              simp
            · intro q hq1 hq2
              rw [readFile_writeFile_ne _ _ _ _ hq2,
                  readFile_writeFile_ne _ _ _ _ hq1]
    · simp only [Bool.not_eq_true] at htgt
      simp only [htgt, Bool.false_eq_true, if_false] at hok ⊢
      simp only [Env.copyFile, hmf, Bool.false_eq_true, if_false] at hok ⊢
      cases hrdc : fs.readFile current_path with
      | none =>
        unfold FS.fileExists at hsrc
        rw [hrdc] at hsrc
        simp at hsrc
      | some dc =>
        simp only [hrdc]
        refine ⟨?_, rfl, ?_⟩
        · unfold FS.fileExists
          rw [readFile_writeFile]
          simp
        · intro q hq1 hq2
          exact readFile_writeFile_ne fs _ q dc hq2

theorem save_config_fail (env : Env) (fs : FS) (dir : String) (c : AppConfig)
    (henv : env.appDataDir = some dir) (hdir : fs.dirExists dir = true)
    (hw : env.failWrite (configPathOf dir) = true) :
    save_config env fs c = (Except.error "保存配置文件失败", fs) := by
  unfold save_config
  rw [get_config_path_ok env fs dir henv hdir]
  simp [Env.writeJson, hw]

/-- Claim C2: when the source database file exists, a failure of the
config backup, the target-directory creation, the target-file backup or
the database copy makes `change_database_location` return an error with
the stored config file untouched; and a successful call implies the
database copy was performed before the config was rewritten with the
new path. -/
theorem change_database_location_aborts_preserve_config
    (env : Env) (fs fs1 : FS) (dir new_dir current_path : String)
    (j : Json) (c : AppConfig)
    (henv : env.appDataDir = some dir) (hdir : fs.dirExists dir = true)
    (hfile : fs.readFile (configPathOf dir) = some (FileData.jsonData j))
    (hread : env.failRead (configPathOf dir) = false)
    (hparse : parseAppConfig j = some c)
    (hget : get_database_path env fs = (Except.ok current_path, fs1))
    (hsrc : fs1.fileExists current_path = true)
    (hpar : parentOf (new_dir ++ "/jdnotes.db") = some new_dir)
    (hb_ne_cp : withExtension (configPathOf dir) "json.backup" ≠ configPathOf dir)
    (hnp_ne_cp : new_dir ++ "/jdnotes.db" ≠ configPathOf dir)
    (hnbp_ne_cp : withExtension (new_dir ++ "/jdnotes.db") "db.backup" ≠
      configPathOf dir) :
    ((env.failCopy (configPathOf dir)
        (withExtension (configPathOf dir) "json.backup") = true ∨
      (fs1.dirExists new_dir = false ∧ env.failCreateDir new_dir = true) ∨
      (fs1.fileExists (new_dir ++ "/jdnotes.db") = true ∧
        env.failCopy (new_dir ++ "/jdnotes.db")
          (withExtension (new_dir ++ "/jdnotes.db") "db.backup") = true) ∨
      env.failCopy current_path (new_dir ++ "/jdnotes.db") = true) →
      (change_database_location env fs new_dir).1.isOk = false ∧
      (change_database_location env fs new_dir).2.readFile (configPathOf dir) =
        some (FileData.jsonData j)) ∧
    (∀ p, (change_database_location env fs new_dir).1 = Except.ok p →
      env.failCopy current_path (new_dir ++ "/jdnotes.db") = false ∧
      (change_database_location env fs new_dir).2.fileExists
        (new_dir ++ "/jdnotes.db") = true ∧
      parseFileConfig (change_database_location env fs new_dir).2
        (configPathOf dir) =
        some { c with database_path := some (new_dir ++ "/jdnotes.db") }) := by
  have hpf := get_database_path_preserves_files env fs dir j c henv hdir hfile hread hparse
  rw [hget] at hpf
  simp only [] at hpf
  obtain ⟨hfiles1, hdirs1⟩ := hpf
  have hrf1 : fs1.readFile (configPathOf dir) = some (FileData.jsonData j) := by
    rw [readFile_of_files_eq fs1 fs _ hfiles1]
    exact hfile
  have hex1 : fs1.fileExists (configPathOf dir) = true := by
    unfold FS.fileExists
    rw [hrf1]
    rfl
  constructor
  · intro hD
    by_cases hb1 : env.failCopy (configPathOf dir)
        (withExtension (configPathOf dir) "json.backup") = true
    · unfold change_database_location
      rw [hget]
      simp only []
      rw [get_config_path_ok env fs1 dir henv hdirs1]
      simp only []
      rw [backup_config_step_fail env fs1 (configPathOf dir) hex1 hb1]
      simp only []
      exact ⟨rfl, hrf1⟩
    · simp only [Bool.not_eq_true] at hb1
      have hback := backup_config_step_ok env fs1 (configPathOf dir)
        (FileData.jsonData j) hrf1 hb1
      have hens : (∃ fs4 : FS,
          ensure_target_dir_step env
            (fs1.writeFile (withExtension (configPathOf dir) "json.backup")
              (FileData.jsonData j)) (new_dir ++ "/jdnotes.db") =
            (Except.ok (), fs4) ∧
          fs4.files = (fs1.writeFile (withExtension (configPathOf dir)
            "json.backup") (FileData.jsonData j)).files ∧
          fs4.dirExists dir = true) ∨
          (fs1.dirExists new_dir = false ∧ env.failCreateDir new_dir = true) := by
        by_cases hd : fs1.dirExists new_dir = true
        · exact Or.inl ⟨_, ensure_target_dir_step_exists env _ _ new_dir hpar hd,
            rfl, hdirs1⟩
        · simp only [Bool.not_eq_true] at hd
          by_cases hcf : env.failCreateDir new_dir = true
          · exact Or.inr ⟨hd, hcf⟩
          · simp only [Bool.not_eq_true] at hcf
            refine Or.inl ⟨_,
              ensure_target_dir_step_creates env _ _ new_dir hpar hd hcf, rfl, ?_⟩
            exact dirExists_mkdirAll_of _ new_dir dir hdirs1
      rcases hD with hD | hD | hD | hD
      · rw [hD] at hb1
        cases hb1
      · obtain ⟨hd2, hcf⟩ := hD
        unfold change_database_location
        rw [hget]
        simp only []
        rw [get_config_path_ok env fs1 dir henv hdirs1]
        simp only []
        rw [hback]
        simp only []
        rw [ensure_target_dir_step_fail env (fs1.writeFile (withExtension (configPathOf dir) "json.backup") (FileData.jsonData j)) (new_dir ++ "/jdnotes.db") new_dir hpar hd2 hcf]
        simp only []
        refine ⟨rfl, ?_⟩
        rw [readFile_writeFile_ne fs1 _ _ _ (Ne.symm hb_ne_cp)]
        exact hrf1
      · obtain ⟨htgt, hbf⟩ := hD
        unfold change_database_location
        rw [hget]
        simp only []
        rw [get_config_path_ok env fs1 dir henv hdirs1]
        simp only []
        rw [hback]
        simp only []
        rcases hens with ⟨fs4, hens_eq, hens_files, hens_dir⟩ | ⟨hd2, hcf⟩
        · rw [hens_eq]
          simp only []
          have hsrc4 : fs4.fileExists current_path = true := by
            rw [fileExists_of_files_eq fs4 _ _ hens_files]
            exact fileExists_writeFile_of fs1 _ _ _ hsrc
          have htgt4 : fs4.fileExists (new_dir ++ "/jdnotes.db") = true := by
            rw [fileExists_of_files_eq fs4 _ _ hens_files]
            exact fileExists_writeFile_of fs1 _ _ _ htgt
          rw [copy_database_step_target_backup_fail env fs4 current_path _
            hsrc4 htgt4 hbf]
          simp only []
          refine ⟨rfl, ?_⟩
          rw [readFile_of_files_eq fs4 _ _ hens_files,
              readFile_writeFile_ne fs1 _ _ _ (Ne.symm hb_ne_cp)]
          exact hrf1
        · rw [ensure_target_dir_step_fail env (fs1.writeFile (withExtension (configPathOf dir) "json.backup") (FileData.jsonData j)) (new_dir ++ "/jdnotes.db") new_dir hpar hd2 hcf]
          simp only []
          refine ⟨rfl, ?_⟩
          rw [readFile_writeFile_ne fs1 _ _ _ (Ne.symm hb_ne_cp)]
          exact hrf1
      · unfold change_database_location
        rw [hget]
        simp only []
        rw [get_config_path_ok env fs1 dir henv hdirs1]
        simp only []
        rw [hback]
        simp only []
        rcases hens with ⟨fs4, hens_eq, hens_files, hens_dir⟩ | ⟨hd2, hcf⟩
        · rw [hens_eq]
          simp only []
          have hsrc4 : fs4.fileExists current_path = true := by
            rw [fileExists_of_files_eq fs4 _ _ hens_files]
            exact fileExists_writeFile_of fs1 _ _ _ hsrc
          obtain ⟨hf1, hf2⟩ := copy_database_step_main_copy_fail env fs4
            current_path (new_dir ++ "/jdnotes.db") hsrc4 hD
          cases hcs : copy_database_step env fs4 current_path
              (new_dir ++ "/jdnotes.db") with
          | mk r5 fs5 =>
            rw [hcs] at hf1 hf2
            simp only [] at hf1 hf2
            cases r5 with
            | ok u => cases hf1
            | error e =>
              refine ⟨rfl, ?_⟩
              rw [hf2 (configPathOf dir) (Ne.symm hnbp_ne_cp),
                  readFile_of_files_eq fs4 _ _ hens_files,
                  readFile_writeFile_ne fs1 _ _ _ (Ne.symm hb_ne_cp)]
              exact hrf1
        · rw [ensure_target_dir_step_fail env (fs1.writeFile (withExtension (configPathOf dir) "json.backup") (FileData.jsonData j)) (new_dir ++ "/jdnotes.db") new_dir hpar hd2 hcf]
          simp only []
          refine ⟨rfl, ?_⟩
          rw [readFile_writeFile_ne fs1 _ _ _ (Ne.symm hb_ne_cp)]
          exact hrf1
  · intro p hok
    by_cases hb1 : env.failCopy (configPathOf dir)
        (withExtension (configPathOf dir) "json.backup") = true
    · exfalso
      unfold change_database_location at hok
      rw [hget] at hok
      simp only [] at hok
      rw [get_config_path_ok env fs1 dir henv hdirs1] at hok
      simp only [] at hok
      rw [backup_config_step_fail env fs1 (configPathOf dir) hex1 hb1] at hok
      simp at hok
    · simp only [Bool.not_eq_true] at hb1
      have hback := backup_config_step_ok env fs1 (configPathOf dir)
        (FileData.jsonData j) hrf1 hb1
      have hens : ∃ fs4 : FS,
          ensure_target_dir_step env
            (fs1.writeFile (withExtension (configPathOf dir) "json.backup")
              (FileData.jsonData j)) (new_dir ++ "/jdnotes.db") =
            (Except.ok (), fs4) ∧
          fs4.files = (fs1.writeFile (withExtension (configPathOf dir)
            "json.backup") (FileData.jsonData j)).files ∧
          fs4.dirExists dir = true := by
        by_cases hd : fs1.dirExists new_dir = true
        · exact ⟨_, ensure_target_dir_step_exists env _ _ new_dir hpar hd,
            rfl, hdirs1⟩
        · simp only [Bool.not_eq_true] at hd
          by_cases hcf : env.failCreateDir new_dir = true
          · exfalso
            unfold change_database_location at hok
            rw [hget] at hok
            simp only [] at hok
            rw [get_config_path_ok env fs1 dir henv hdirs1] at hok
            simp only [] at hok
            rw [hback] at hok
            simp only [] at hok
            rw [ensure_target_dir_step_fail env (fs1.writeFile (withExtension (configPathOf dir) "json.backup") (FileData.jsonData j)) (new_dir ++ "/jdnotes.db") new_dir hpar hd hcf] at hok
            simp at hok
          · simp only [Bool.not_eq_true] at hcf
            refine ⟨_,
              ensure_target_dir_step_creates env _ _ new_dir hpar hd hcf, rfl, ?_⟩
            exact dirExists_mkdirAll_of _ new_dir dir hdirs1
      obtain ⟨fs4, hens_eq, hens_files, hens_dir⟩ := hens
      have hsrc4 : fs4.fileExists current_path = true := by
        rw [fileExists_of_files_eq fs4 _ _ hens_files]
        exact fileExists_writeFile_of fs1 _ _ _ hsrc
      cases hcs : copy_database_step env fs4 current_path
          (new_dir ++ "/jdnotes.db") with
      | mk r5 fs5 =>
        cases r5 with
        | error e =>
          exfalso
          unfold change_database_location at hok
          rw [hget] at hok
          simp only [] at hok
          rw [get_config_path_ok env fs1 dir henv hdirs1] at hok
          simp only [] at hok
          rw [hback] at hok
          simp only [] at hok
          rw [hens_eq] at hok
          simp only [] at hok
          rw [hcs] at hok
          simp at hok
        | ok u =>
          have hcisOk : (copy_database_step env fs4 current_path
              (new_dir ++ "/jdnotes.db")).1.isOk = true := by
            rw [hcs]
            rfl
          obtain ⟨hmf, hnpex, hdirs5, hreads5⟩ := copy_database_step_isOk env fs4
            current_path (new_dir ++ "/jdnotes.db") hsrc4 hcisOk
          rw [hcs] at hnpex hdirs5 hreads5
          simp only [] at hnpex hdirs5 hreads5
          have hrf5 : fs5.readFile (configPathOf dir) =
              some (FileData.jsonData j) := by
            rw [hreads5 (configPathOf dir) (Ne.symm hnbp_ne_cp)
                (Ne.symm hnp_ne_cp),
                readFile_of_files_eq fs4 _ _ hens_files,
                readFile_writeFile_ne fs1 _ _ _ (Ne.symm hb_ne_cp)]
            exact hrf1
          have hdir5 : fs5.dirExists dir = true := by
            unfold FS.dirExists
            rw [hdirs5]
            exact hens_dir
          have hload := load_config_strict env fs5 dir j c henv hdir5 hrf5
            hread hparse
          by_cases hw : env.failWrite (configPathOf dir) = true
          · exfalso
            unfold change_database_location at hok
            rw [hget] at hok
            simp only [] at hok
            rw [get_config_path_ok env fs1 dir henv hdirs1] at hok
            simp only [] at hok
            rw [hback] at hok
            simp only [] at hok
            rw [hens_eq] at hok
            simp only [] at hok
            rw [hcs] at hok
            simp only [] at hok
            rw [hload] at hok
            simp only [] at hok
            rw [save_config_fail env fs5 dir { c with database_path := some (new_dir ++ "/jdnotes.db") } henv hdir5 hw] at hok
            simp at hok
          · simp only [Bool.not_eq_true] at hw
            have hsave := save_config_ok env fs5 dir
              { c with database_path := some (new_dir ++ "/jdnotes.db") }
              henv hdir5 hw
            have hcdl : change_database_location env fs new_dir =
                (Except.ok (new_dir ++ "/jdnotes.db"),
                 fs5.writeFile (configPathOf dir) (FileData.jsonData
                   ({ c with database_path := some (new_dir ++ "/jdnotes.db") }).toJson)) := by
              unfold change_database_location
              rw [hget]
              simp only []
              rw [get_config_path_ok env fs1 dir henv hdirs1]
              simp only []
              rw [hback]
              simp only []
              rw [hens_eq]
              simp only []
              rw [hcs]
              simp only []
              rw [hload]
              simp only []
              rw [hsave]
            refine ⟨hmf, ?_, ?_⟩
            · rw [hcdl]
              exact fileExists_writeFile_of fs5 _ _ _ hnpex
            · rw [hcdl]
              unfold parseFileConfig
              simp only [readFile_writeFile, if_pos rfl]
              exact parseAppConfig_toJson _

/-- Filesystem holding a well-formed config and a database file. -/
def withDbFS : FS :=
  ⟨[("/a/config.json", FileData.jsonData AppConfig.default.toJson),
    ("/a/jdnotes.db", FileData.rawData 5)], ["/a"]⟩

/-- Environment in which copying the database to `/n/jdnotes.db` fails. -/
def envCopyFail : Env :=
  { envOK with failCopy := fun src dst =>
      src == "/a/jdnotes.db" && dst == "/n/jdnotes.db" }

/-- Witness for claim C2: a failing database copy aborts the relocation
and leaves the stored config intact. -/
theorem change_database_location_aborts_witness :
    (change_database_location envCopyFail withDbFS "/n").1.isOk = false ∧
    (change_database_location envCopyFail withDbFS "/n").2.readFile
        (configPathOf "/a") =
      some (FileData.jsonData AppConfig.default.toJson) :=
  (change_database_location_aborts_preserve_config envCopyFail withDbFS withDbFS
    "/a" "/n" "/a/jdnotes.db" AppConfig.default.toJson AppConfig.default
    rfl rfl rfl rfl rfl rfl rfl rfl (by decide) (by decide) (by decide)).1
    (Or.inr (Or.inr (Or.inr rfl)))

end JDNotes
